import Mathlib

/-!
Verification development for the KFCC rates crawler.

Shallow embedding of the repository's Python modules:
`src/parser.py`, `src/crawler.py`, `src/storage.py`, `src/grade_crawler.py`.
Strings are modelled as Lean `String` / `List Char`; Python `float` rates are
modelled as `ℚ` (parsed exactly from the decimal text); wall-clock time is
modelled as an integer number of seconds, where midnight of a calendar date
falls at `toOrdinal y m d * 86400` (the proleptic-Gregorian ordinal used by
Python's `datetime.toordinal`, scaled to seconds).
-/

namespace KFCC

/-! ## Generic character/string utilities shared by the embedded functions -/

/-- Boolean substring test on character lists (Python `pat in text`). -/
def containsSub (pat : List Char) : List Char → Bool
  | [] => pat.isEmpty
  | c :: cs => pat.isPrefixOf (c :: cs) || containsSub pat cs

/-- Python `text.replace(pat, '')`: left-to-right, non-overlapping removal of
every occurrence of `pat`. -/
def removeSub (pat : List Char) : List Char → List Char
  | [] => []
  | c :: cs =>
    if h : pat ≠ [] ∧ pat.isPrefixOf (c :: cs) then removeSub pat ((c :: cs).drop pat.length)
    else c :: removeSub pat cs
termination_by l => l.length
decreasing_by
  · have hp : 0 < pat.length := List.length_pos.mpr h.1
    simp only [List.length_drop, List.length_cons]
    omega
  · simp only [List.length_cons]
    omega

/-- Digit-run value (`int` of a run of decimal digits). -/
def digitsToNat (ds : List Char) : ℕ :=
  ds.foldl (fun acc c => acc * 10 + (c.toNat - '0'.toNat)) 0

/-- Python `str.strip()` on a character list. -/
def stripChars (cs : List Char) : List Char :=
  ((cs.dropWhile Char.isWhitespace).reverse.dropWhile Char.isWhitespace).reverse

/-! ## `parser.py` — `BankParser._remove_duplicates`

```python
for divisor in [2, 3, 4]:
    if len(text) >= divisor and len(text) % divisor == 0:
        chunk_size = len(text) // divisor
        chunks = [text[i:i+chunk_size] for i in range(0, len(text), chunk_size)]
        if len(set(chunks)) == 1:
            return chunks[0]
return text
```
-/

/-- `[text[i:i+size] for i in range(0, len(text), size)]` (for `size > 0`). -/
def chunkList (cs : List Char) (size : ℕ) : List (List Char) :=
  if h : 0 < size ∧ cs ≠ [] then
    cs.take size :: chunkList (cs.drop size) size
  else []
termination_by cs.length
decreasing_by
  have hne : cs.length ≠ 0 := fun hl => h.2 (List.eq_nil_of_length_eq_zero hl)
  simp only [List.length_drop]
  omega

/-- One divisor step of `_remove_duplicates`: if the text splits into `d`
identical equal-length chunks, return that chunk. -/
def tryDiv (d : ℕ) (t : List Char) : Option (List Char) :=
  if t.length ≥ d ∧ t.length % d = 0 then
    match chunkList t (t.length / d) with
    | [] => none
    | c :: rest => if rest.all (fun x => x == c) then some c else none
  else none

/-- `BankParser._remove_duplicates`: divisors 2, 3, 4 are tried in order. -/
def removeDuplicates (t : List Char) : List Char :=
  match tryDiv 2 t with
  | some c => c
  | none =>
    match tryDiv 3 t with
    | some c => c
    | none =>
      match tryDiv 4 t with
      | some c => c
      | none => t

/-- `n` concatenated copies of the chunk `C`. -/
def repChunks (n : ℕ) (C : List Char) : List Char :=
  match n with
  | 0 => []
  | n + 1 => C ++ repChunks n C

/-! ## `parser.py` — `BankParser` branch extraction

An HTML table row is abstracted to exactly the observations the two strategies
make of it: the `(title, stripped text)` pairs of its `display: none` spans,
the number of its `td` cells, and its flattened stripped text. -/

structure Row where
  hiddenSpans : List (String × String)
  tds : ℕ
  fullText : List Char
deriving DecidableEq

/-- The bank dictionary both strategies produce.  `extract_from_hidden_spans`
only sets the keys whose title was present (`Option`); `extract_from_text`
always sets them (possibly to `""`). -/
structure BankData where
  gmgoCd : String
  name : String
  gtype : Option String
  phone : Option String
  address : Option String
deriving DecidableEq

/-- Accumulator for the hidden-span field scan (the partial `bank_data` dict). -/
structure HiddenAcc where
  gmgoCd : Option String
  name : Option String
  branchName : Option String
  gtype : Option String
  phone : Option String
  address : Option String
deriving DecidableEq

/-- One iteration of the `for span in hidden_spans` loop, keyed by the
`field_mapping` table (`gmgoCd/name/divNm/gmgoType/telephone/addr`). -/
def hiddenStep (acc : HiddenAcc) (sp : String × String) : HiddenAcc :=
  match sp.1 with
  | "gmgoCd" => { acc with gmgoCd := some sp.2 }
  | "name" => { acc with name := some sp.2 }
  | "divNm" => { acc with branchName := some sp.2 }
  | "gmgoType" => { acc with gtype := some sp.2 }
  | "telephone" => { acc with phone := some sp.2 }
  | "addr" => { acc with address := some sp.2 }
  | _ => acc

/-- `BankParser.extract_from_hidden_spans`: requires at least 5 hidden spans,
collects the mapped fields, requires `gmgoCd` and `name`, and composes
`name(branch_name)` when a non-empty `divNm` was present. -/
def extractFromHiddenSpans (r : Row) : Option BankData :=
  if r.hiddenSpans.length < 5 then none
  else
    let acc := r.hiddenSpans.foldl hiddenStep ⟨none, none, none, none, none, none⟩
    match acc.gmgoCd, acc.name with
    | some cd, some nm =>
      let finalName :=
        match acc.branchName with
        | some b => if b ≠ "" then nm ++ "(" ++ b ++ ")" else nm
        | none => nm
      some ⟨cd, finalName, acc.gtype, acc.phone, acc.address⟩
    | _, _ => none

/-- `[가-힣]`: one Hangul-syllable character. -/
def isHangul (c : Char) : Bool :=
  0xAC00 ≤ c.toNat && c.toNat ≤ 0xD7A3

/-- Leftmost match of `\(([^)]+)\)` (the parenthesised branch name), returning
the group. -/
def searchParen : List Char → Option (List Char)
  | [] => none
  | c :: rest =>
    if c = '(' then
      let run := rest.takeWhile (fun x => x ≠ ')')
      if run.isEmpty then searchParen rest
      else if (rest.drop run.length).head? = some ')' then some run
      else searchParen rest
    else searchParen rest

/-- Attempt `0\d{1,2}-\d{3,4}-\d{4}` anchored at the head of the list. -/
def matchPhoneAt (cs : List Char) : Option (List Char) :=
  match cs with
  | '0' :: rest =>
    let r1 := rest.takeWhile Char.isDigit
    if (r1.length = 1 ∨ r1.length = 2) ∧ (rest.drop r1.length).head? = some '-' then
      let rest2 := rest.drop (r1.length + 1)
      let r2 := rest2.takeWhile Char.isDigit
      if (r2.length = 3 ∨ r2.length = 4) ∧ (rest2.drop r2.length).head? = some '-' then
        let rest3 := rest2.drop (r2.length + 1)
        let r3 := rest3.takeWhile Char.isDigit
        if r3.length ≥ 4 then
          some ('0' :: r1 ++ '-' :: r2 ++ '-' :: r3.take 4)
        else none
      else none
    else none
  | _ => none

/-- Leftmost match of the phone pattern `(0\d{1,2}-\d{3,4}-\d{4})`. -/
def searchPhone : List Char → Option (List Char)
  | [] => none
  | c :: rest =>
    match matchPhoneAt (c :: rest) with
    | some m => some m
    | none => searchPhone rest

/-- The fixed top-level administrative-region alternation of the address
pattern. -/
def regionWords : List String :=
  ["서울", "인천", "경기", "부산", "대구", "광주", "대전", "울산", "세종",
   "강원", "충북", "충남", "전북", "전남", "경북", "경남", "제주"]

/-- The lookahead `(?=\d{5}|$)`. -/
def fiveDigitsOrEnd (l : List Char) : Bool :=
  l.isEmpty || ((l.take 5).length = 5 && (l.take 5).all Char.isDigit)

/-- Lazy `[^\d]+?` bounded by the lookahead: the shortest non-empty run of
non-digit characters after which `fiveDigitsOrEnd` holds. -/
def lazyNonDigitRun : List Char → Option ℕ
  | [] => none
  | x :: xs =>
    if x.isDigit then none
    else if fiveDigitsOrEnd xs then some 1
    else (lazyNonDigitRun xs).map (· + 1)

/-- Attempt the address pattern anchored at the head of the list, returning the
whole match (group 0). -/
def matchAddrAt (cs : List Char) : Option (List Char) :=
  match regionWords.find? (fun w => w.data.isPrefixOf cs) with
  | none => none
  | some w =>
    let after := cs.drop w.data.length
    match lazyNonDigitRun after with
    | some k => some (w.data ++ after.take k)
    | none => none

/-- Leftmost match of
`(서울|인천|...|제주)[^\d]+?(?=\d{5}|$)` over the row text. -/
def searchAddr : List Char → Option (List Char)
  | [] => none
  | c :: rest =>
    match matchAddrAt (c :: rest) with
    | some m => some m
    | none => searchAddr rest

/-- `BankParser.extract_from_text`: the heuristic fallback strategy. -/
def extractFromText (r : Row) : Option BankData :=
  if r.tds < 6 then none
  else
    let t := r.fullText
    let code := t.take 5
    if ¬ (code.length = 5 ∧ code.all Char.isDigit) then none
    else
      match (t.drop 5).takeWhile isHangul with
      | [] => none
      | nm :: nmRest =>
        let bankName := removeDuplicates (nm :: nmRest)
        let name :=
          match searchParen t with
          | some b => bankName ++ '(' :: b ++ [')']
          | none => bankName
        let phone := ((searchPhone t).getD []).asString
        let addr := (stripChars ((searchAddr t).getD [])).asString
        let gtype := (["지역", "직장"].find? (fun kw => containsSub kw.data t)).getD ""
        some ⟨code.asString, name.asString, some gtype, some phone, some addr⟩

/-- The per-row logic of `parse_bank_list`: the structured strategy first, the
heuristic fallback only when it yields nothing. -/
def bankRowData (r : Row) : Option BankData :=
  match extractFromHiddenSpans r with
  | some d => some d
  | none => extractFromText r

/-- A parsed bank entry after `parse_bank_list` adds the common fields. -/
structure BankEntry where
  data : BankData
  city : String
  district : String
  crawledAt : ℤ
deriving DecidableEq

/-- `parse_bank_list` over the list of table rows. -/
def parseBankList (rows : List Row) (city district : String) (now : ℤ) : List BankEntry :=
  rows.filterMap (fun r => (bankRowData r).map (fun d => ⟨d, city, district, now⟩))

/-! ## `parser.py` — `InterestRateParser` -/

/-- The per-category product-name whitelist (`valid_products`). -/
def validProducts : List (String × List String) :=
  [("요구불예탁금", ["온라인자립예탁금", "상상모바일통장"]),
   ("거치식예탁금", ["MG더뱅킹정기예금"]),
   ("적립식예탁금", ["MG더뱅킹정기적금", "MG더뱅킹자유적금"])]

/-- `InterestRateParser._is_valid_product`: substring whitelist per category. -/
def isValidProduct (productName ptype : String) : Bool :=
  match validProducts.lookup ptype with
  | none => false
  | some ws => ws.any (fun w => containsSub w.data productName.data)

/-- `InterestRateParser._extract_duration_and_rate`.  `cells` is the list of
stripped `td` texts of the row. -/
def extractDurationAndRate (cells : List String) (ptype : String) : String × String :=
  if ptype = "요구불예탁금" then
    ("", ((cells.getLast?).getD ""))
  else if cells.length ≥ 2 then
    ((cells.drop (cells.length - 2)).headD "", (cells.getLast?).getD "")
  else ("", "")

/-- `InterestRateParser._parse_duration`: strip `월` and `이상`, then
`re.search(r'(\d+)')` and `int`. -/
def parseDuration (text : String) : ℕ :=
  if text = "" then 0
  else
    let t := removeSub "이상".data (text.data.filter (fun c => c ≠ '월'))
    match (t.dropWhile (fun c => ¬ c.isDigit)).takeWhile Char.isDigit with
    | [] => 0
    | ds => digitsToNat ds

/-- `InterestRateParser._parse_rate`: strip `%`, then
`re.search(r'(\d+\.?\d*)')` and `float` — modelled exactly over `ℚ`. -/
def parseRate (text : String) : ℚ :=
  if text = "" then 0
  else
    let t := text.data.filter (fun c => c ≠ '%')
    let rest := t.dropWhile (fun c => ¬ c.isDigit)
    match rest.takeWhile Char.isDigit with
    | [] => 0
    | ds =>
      let after := rest.dropWhile Char.isDigit
      let frac :=
        match after with
        | '.' :: more => more.takeWhile Char.isDigit
        | _ => []
      (digitsToNat ds : ℚ) + (digitsToNat frac : ℚ) / (10 : ℚ) ^ frac.length

/-- One product row of the rate table (the dict `parse_product_row` builds). -/
structure Product where
  productName : String
  durationMonths : ℕ
  interestRate : ℚ
  durationText : String
  rateText : String
  productType : String
deriving DecidableEq

/-- `InterestRateParser.parse_product_row`. -/
def parseProductRow (cells : List String) (ptype : String) : Option Product :=
  if cells.length < 2 then none
  else
    let productName := cells.headD ""
    if ¬ isValidProduct productName ptype then none
    else
      let dr := extractDurationAndRate cells ptype
      let dur := parseDuration dr.1
      let rate := parseRate dr.2
      if ptype = "요구불예탁금" then
        if rate ≤ 0 then none
        else some ⟨productName, dur, rate, dr.1, dr.2, ptype⟩
      else if dur ≤ 0 ∨ rate ≤ 0 then none
      else some ⟨productName, dur, rate, dr.1, dr.2, ptype⟩

/-! ## `parser.py` / `crawler.py` — product deduplication

`remove_duplicate_products` (module level) and
`KFCCCrawler._remove_duplicate_products` are the same algorithm: a `seen` set
of composite keys, first occurrence kept in input order. -/

/-- The composite key `(product_name, duration_months, interest_rate,
product_type)`. -/
def dedupKey (p : Product) : String × ℕ × ℚ × String :=
  (p.productName, p.durationMonths, p.interestRate, p.productType)

/-- The `for product in products` loop with its `seen` set. -/
def removeDupGo (seen : List (String × ℕ × ℚ × String)) : List Product → List Product
  | [] => []
  | p :: ps =>
    if dedupKey p ∈ seen then removeDupGo seen ps
    else p :: removeDupGo (dedupKey p :: seen) ps

/-- `remove_duplicate_products`. -/
def removeDuplicateProducts (products : List Product) : List Product :=
  removeDupGo [] products

/-! ## `parser.py` — `parse_summary_data` / `calculate_statistics`

Python `round(x, 2)` on floats is modelled as exact rounding of `x * 100` over
`ℚ` (the claims under verification never inspect these rounded values). -/

/-- `round(x, 2)`. -/
def round2 (q : ℚ) : ℚ := (round (q * 100) : ℚ) / 100

/-- One `{count, average_rate, min_rate, max_rate}` statistics entry. -/
structure StatEntry where
  count : ℕ
  averageRate : ℚ
  minRate : ℚ
  maxRate : ℚ
deriving DecidableEq

/-- min of a rate list with a default for the (never-taken) empty case. -/
def ratesMin (l : List ℚ) : ℚ := l.foldr min (l.headD 0)

/-- max of a rate list with a default for the (never-taken) empty case. -/
def ratesMax (l : List ℚ) : ℚ := l.foldr max (l.headD 0)

/-- `StatEntry` for a non-empty group of rates. -/
def statsOf (l : List ℚ) : StatEntry :=
  ⟨l.length, round2 (l.sum / l.length), round2 (ratesMin l), round2 (ratesMax l)⟩

/-- Python-dict grouping: append the value to the key's list if the key is
present, else add the key at the end (insertion order preserved). -/
def addToGroup {K V : Type} [DecidableEq K] (g : List (K × List V)) (k : K) (v : V) :
    List (K × List V) :=
  match g with
  | [] => [(k, [v])]
  | (k0, vs) :: rest =>
    if k0 = k then (k0, vs ++ [v]) :: rest
    else (k0, vs) :: addToGroup rest k v

/-- The summary dict: `create_empty_summary` and the non-empty shape built by
`parse_summary_data` have different key sets, hence two constructors. -/
inductive Summary where
  | emptyS (totalBanks : ℕ) (crawledAt : ℤ)
  | statsS (totalBanks totalProducts : ℕ) (averageRate : ℚ) (rateRange : ℚ × ℚ)
      (durationStats : List (ℕ × StatEntry)) (productTypeStats : List (String × StatEntry))
      (crawledAt : ℤ)
deriving DecidableEq

/-- One `InterestRate` record (`crawler.py` dataclass, the dict stored per
branch in the daily rates list). -/
structure RateRecord where
  bankCode : String
  bankName : String
  baseDate : String
  products : List Product
  crawledAt : ℤ
  totalProducts : ℕ
deriving DecidableEq

/-- `calculate_statistics` (the parts `parse_summary_data` consumes). -/
def calculateStatistics (products : List Product) :
    ℚ × (ℚ × ℚ) × List (ℕ × StatEntry) × List (String × StatEntry) :=
  let rates := (products.filter (fun p => 0 < p.interestRate)).map (·.interestRate)
  let avg := if rates.isEmpty then 0 else round2 (rates.sum / rates.length)
  let range := if rates.isEmpty then ((0 : ℚ), (0 : ℚ))
               else (round2 (ratesMin rates), round2 (ratesMax rates))
  let dgroups := products.foldl
    (fun g p => addToGroup g p.durationMonths p.interestRate) []
  let tgroups := products.foldl
    (fun g p => addToGroup g p.productType p.interestRate) []
  (avg, range,
   (dgroups.filter (fun e => ¬ e.2.isEmpty)).map (fun e => (e.1, statsOf e.2)),
   (tgroups.filter (fun e => ¬ e.2.isEmpty)).map (fun e => (e.1, statsOf e.2)))

/-- `parse_summary_data`. -/
def parseSummaryData (ratesData : List RateRecord) (now : ℤ) : Summary :=
  if ratesData.isEmpty then .emptyS 0 now
  else
    let allProducts := ratesData.flatMap (·.products)
    if allProducts.isEmpty then .emptyS ratesData.length now
    else
      let st := calculateStatistics allProducts
      .statsS ratesData.length allProducts.length st.1 st.2.1 st.2.2.1 st.2.2.2 now

/-! ## Calendar arithmetic (`datetime.strptime('%Y-%m-%d')`, `.toordinal`,
`.strftime`) -/

/-- Gregorian leap year. -/
def isLeap (y : ℕ) : Bool :=
  y % 4 == 0 && (y % 100 != 0 || y % 400 == 0)

/-- Days in a month. -/
def daysInMonth (y m : ℕ) : ℕ :=
  if m = 2 then (if isLeap y then 29 else 28)
  else if m = 4 ∨ m = 6 ∨ m = 9 ∨ m = 11 then 30
  else 31

/-- Days before month `m` in year `y`. -/
def daysBeforeMonth (y m : ℕ) : ℕ :=
  ((List.range (m - 1)).map (fun i => daysInMonth y (i + 1))).sum

/-- `datetime(y, m, d).toordinal()`: day 1 is 0001-01-01. -/
def toOrdinal (y m d : ℕ) : ℕ :=
  365 * (y - 1) + (y - 1) / 4 - (y - 1) / 100 + (y - 1) / 400 + daysBeforeMonth y m + d

/-- `datetime.strptime(s, '%Y-%m-%d')`, returning the ordinal.  CPython's
`%Y` consumes exactly four digits here, `%m`/`%d` at most two with their value
ranges checked, the whole string must be consumed, and the resulting calendar
date must exist. -/
def parseYMD (cs : List Char) : Option ℕ :=
  let y4 := cs.take 4
  if ¬ (y4.length = 4 ∧ y4.all Char.isDigit) then none
  else
    match cs.drop 4 with
    | '-' :: rest1 =>
      let mrun := rest1.takeWhile Char.isDigit
      if mrun.length = 0 ∨ mrun.length > 2 then none
      else
        match rest1.drop mrun.length with
        | '-' :: rest2 =>
          let drun := rest2.takeWhile Char.isDigit
          if drun.length = 0 ∨ drun.length > 2 then none
          else if ¬ (rest2.drop drun.length).isEmpty then none
          else
            let y := digitsToNat y4
            let m := digitsToNat mrun
            let d := digitsToNat drun
            if 1 ≤ y ∧ 1 ≤ m ∧ m ≤ 12 ∧ 1 ≤ d ∧ d ≤ daysInMonth y m then
              some (toOrdinal y m d)
            else none
        | _ => none
    | _ => none

/-- civil-from-days: inverse of `toOrdinal` (argument is the proleptic
Gregorian ordinal, day 1 = 0001-01-01). -/
def civilFromOrdinal (ord : ℤ) : ℤ × ℕ × ℕ :=
  let z := (ord - 719163) + 719468
  let era := z.ediv 146097
  let doe := (z - era * 146097).toNat
  let yoe := (doe - doe / 1460 + doe / 36524 - doe / 146096) / 365
  let doy := doe - (365 * yoe + yoe / 4 - yoe / 100)
  let mp := (5 * doy + 2) / 153
  let d := doy - (153 * mp + 2) / 5 + 1
  let m := if mp < 10 then mp + 3 else mp - 9
  ((yoe : ℤ) + era * 400 + (if m ≤ 2 then 1 else 0), m, d)

/-- Zero-padded two-digit rendering. -/
def pad2 (n : ℕ) : String :=
  if n < 10 then "0" ++ toString n else toString n

/-- Zero-padded four-digit rendering. -/
def pad4 (n : ℕ) : String :=
  if n < 10 then "000" ++ toString n
  else if n < 100 then "00" ++ toString n
  else if n < 1000 then "0" ++ toString n
  else toString n

/-- A timestamp in seconds, where midnight of date `(y, m, d)` is
`toOrdinal y m d * 86400`. -/
abbrev Time := ℤ

/-- `(year, month, day)` of a timestamp. -/
def civilOfTime (t : Time) : ℤ × ℕ × ℕ := civilFromOrdinal (t.ediv 86400)

/-- `datetime.now().strftime('%Y%m%d_%H%M%S')`. -/
def fmtTimestamp (t : Time) : String :=
  let c := civilOfTime t
  let tod := (t.emod 86400).toNat
  pad4 c.1.toNat ++ pad2 c.2.1 ++ pad2 c.2.2 ++ "_" ++
    pad2 (tod / 3600) ++ pad2 (tod % 3600 / 60) ++ pad2 (tod % 60)

/-- `datetime.now().strftime('%Y-%m-%d')`. -/
def fmtDateYMD (t : Time) : String :=
  let c := civilOfTime t
  pad4 c.1.toNat ++ "-" ++ pad2 c.2.1 ++ "-" ++ pad2 c.2.2

/-! ## `storage.py` — `StorageManager`

The store's filesystem footprint is modelled by typed slots: the bank-list
file, the `rates/` directory (keyed by filename), the rolling `summary.json`,
the `grades/` directory, and the `backups/` directory (name, mtime, copied
payload).  JSON serialisation is the identity on the typed data. -/

/-- A bank dict as persisted by `save_bank_list` (the fields the storage layer
reads). -/
structure StoredBank where
  gmgoCd : String
  name : String
deriving DecidableEq

structure BankListMeta where
  totalCount : ℕ
  uniqueCount : ℕ
  crawledAt : ℤ
  version : String
deriving DecidableEq

structure BankListFile where
  metadata : BankListMeta
  banks : List StoredBank
deriving DecidableEq

structure RatesMeta where
  date : String
  totalBanks : ℕ
  successfulBanks : ℕ
  crawledAt : ℤ
  version : String
deriving DecidableEq

structure RatesFile where
  metadata : RatesMeta
  summary : Summary
  rates : List RateRecord
deriving DecidableEq

/-- One grade dict (`grade_crawler.py` `parse_grade_data` output). -/
structure GradeRecord where
  gmgoCd : String
  bankName : String
  city : String
  district : String
  evaluationAgency : String
  evaluationDate : String
  gradeCode : String
  gradeName : String
  gradeDescription : String
  collectedAt : ℤ
  evaluationYear : ℤ
  evaluationMonth : ℕ
deriving DecidableEq

structure GradesInfo where
  collectedAt : ℤ
  totalBanks : ℕ
  evaluationYear : Option ℤ
  evaluationMonth : Option ℕ
deriving DecidableEq

structure GradesFile where
  collectionInfo : GradesInfo
  grades : List GradeRecord
deriving DecidableEq

/-- What `_create_backup` can copy: the bank-list file or a daily rates file. -/
abbrev BackupPayload := BankListFile ⊕ RatesFile

/-- A file in the backup directory: name, mtime, content. -/
abbrev BackupEntry := String × Time × BackupPayload

structure StorageState where
  bankListFile : Option BankListFile
  ratesFiles : List (String × RatesFile)
  summaryFile : Option (List (String × Summary))
  gradesFiles : List (String × GradesFile)
  backups : List BackupEntry
deriving DecidableEq

/-- Python-dict assignment on an association list: overwrite in place if the
key exists, else append. -/
def assocSet {V : Type} (l : List (String × V)) (k : String) (v : V) : List (String × V) :=
  match l with
  | [] => [(k, v)]
  | (k0, v0) :: rest =>
    if k0 = k then (k0, v) :: rest else (k0, v0) :: assocSet rest k v

/-- `StorageManager._cleanup_old_backups` (7-day retention on mtime). -/
def cleanupOldBackups (now : Time) (backups : List BackupEntry) : List BackupEntry :=
  backups.filter (fun e => ¬ (e.2.1 < now - 7 * 86400))

/-- `StorageManager._create_backup`: no-op when the target does not exist;
otherwise copy it under `{stem}_{timestamp}{suffix}` and prune old backups. -/
def createBackup (now : Time) (target : Option BackupPayload) (stem suffix : String)
    (backups : List BackupEntry) : List BackupEntry :=
  match target with
  | none => backups
  | some payload =>
    cleanupOldBackups now ((stem ++ "_" ++ fmtTimestamp now ++ suffix, now, payload) :: backups)

/-- `StorageManager._remove_duplicate_banks`: dedup by `gmgoCd`, dropping
entries whose code is falsy. -/
def removeDuplicateBanks (banks : List StoredBank) : List StoredBank :=
  (banks.foldl
    (fun (acc : List StoredBank × List String) b =>
      if b.gmgoCd ≠ "" ∧ b.gmgoCd ∉ acc.2 then (acc.1 ++ [b], b.gmgoCd :: acc.2) else acc)
    ([], [])).1

/-- Stem and suffix of the configured `BANK_LIST_FILE` path.  Modelled from the
spec: the concrete path lives in `config.py`, which is not part of the
repository sources; only its stem/suffix enter backup names. -/
def bankListStem : String := "banks"

def bankListSuffix : String := ".json"

/-- `StorageManager.save_bank_list`. -/
def saveBankList (now : Time) (banks : List StoredBank) (s : StorageState) :
    StorageState × Bool :=
  if banks.isEmpty then (s, false)
  else
    let backups1 := createBackup now (s.bankListFile.map Sum.inl) bankListStem bankListSuffix
      s.backups
    let uniq := removeDuplicateBanks banks
    let fileData : BankListFile :=
      ⟨⟨uniq.length, ((uniq.map (·.gmgoCd)).dedup).length, now, "1.1"⟩, uniq⟩
    ({ s with backups := backups1, bankListFile := some fileData }, true)

/-- `StorageManager.save_daily_rates`. -/
def saveDailyRates (now : Time) (rates : List RateRecord) (dateStr : Option String)
    (s : StorageState) : StorageState × Bool :=
  if rates.isEmpty then (s, false)
  else
    let date := dateStr.getD (fmtDateYMD now)
    let backups1 := createBackup now ((s.ratesFiles.lookup (date ++ ".json")).map Sum.inr)
      date ".json" s.backups
    let summary := parseSummaryData rates now
    let content : RatesFile :=
      ⟨⟨date, rates.length, (rates.filter (fun r => 0 < r.totalProducts)).length, now, "1.1"⟩,
       summary, rates⟩
    let actualName := if rates.length > 100 then date ++ ".json.gz" else date ++ ".json"
    ({ s with backups := backups1, ratesFiles := assocSet s.ratesFiles actualName content }, true)

/-- `StorageManager.save_summary`.  The date-pruning comprehension calls
`strptime` on every key; an unparseable key raises `ValueError` out of the
method (`Except.error`), leaving the store untouched. -/
def saveSummary (now : Time) (summaryData : Summary) (dateStr : Option String)
    (s : StorageState) : Except Unit (StorageState × Bool) :=
  let date := dateStr.getD (fmtDateYMD now)
  let existing := s.summaryFile.getD []
  let merged := assocSet existing date summaryData
  if merged.all (fun e => (parseYMD e.1.data).isSome) then
    let pruned := merged.filter (fun e =>
      match parseYMD e.1.data with
      | some o => ¬ ((o : ℤ) * 86400 < now - 90 * 86400)
      | none => false)
    .ok ({ s with summaryFile := some pruned }, true)
  else .error ()

/-- `StorageManager.save_grades`. -/
def saveGrades (now : Time) (gradesData : List GradeRecord) (s : StorageState) :
    StorageState × Bool :=
  let filename :=
    match gradesData.head? with
    | some g => "grades_" ++ toString g.evaluationYear ++ "_" ++ pad2 g.evaluationMonth ++ ".json"
    | none =>
      let c := civilOfTime now
      "grades_" ++ toString c.1 ++ "_" ++ pad2 c.2.1 ++ ".json"
  let info : GradesInfo :=
    ⟨now, gradesData.length, (gradesData.head?).map (·.evaluationYear),
     (gradesData.head?).map (·.evaluationMonth)⟩
  ({ s with gradesFiles := assocSet s.gradesFiles filename ⟨info, gradesData⟩ }, true)

/-- `Path.stem` of a filename: the name without its last suffix. -/
def stemChars (cs : List Char) : List Char :=
  match (cs.reverse.takeWhile (fun c => c ≠ '.')).length with
  | n =>
    if n + 1 < cs.length ∧ 0 < n then cs.take (cs.length - n - 1) else cs

/-- `rates_dir.glob('*.json*')` membership: pathlib fnmatch of the pattern,
i.e. the name contains `.json`. -/
def globJson (name : String) : Bool :=
  containsSub ".json".data name.data

/-- The per-file condition of `cleanup_old_data`: globbed, date-parsing stem,
strictly older than `now - days_to_keep`. -/
def oldRatesFile (now : Time) (daysToKeep : ℕ) (name : String) : Bool :=
  globJson name &&
    match parseYMD (removeSub ".json".data (stemChars name.data)) with
    | some o => decide ((o : ℤ) * 86400 < now - (daysToKeep : ℤ) * 86400)
    | none => false

/-- The `for file in self.rates_dir.glob('*.json*')` loop: returns the
surviving files and the removed count. -/
def cleanupLoop (now : Time) (daysToKeep : ℕ) : List String → List String × ℕ
  | [] => ([], 0)
  | f :: rest =>
    let r := cleanupLoop now daysToKeep rest
    if oldRatesFile now daysToKeep f then (r.1, r.2 + 1) else (f :: r.1, r.2)

/-- `StorageManager.cleanup_old_data` over the rates-directory listing. -/
def cleanupOldData (ratesDirExists : Bool) (files : List String) (now : Time)
    (daysToKeep : ℕ) : List String × ℕ :=
  if ¬ ratesDirExists then (files, 0)
  else cleanupLoop now daysToKeep files

/-! ## `crawler.py` — `KFCCCrawler._make_request`

The transport is an oracle `outcome : ℕ → Option R`: attempt `i` either
returns a 2xx response (`some r`) or ends in a `RequestException`
(transport failure or `raise_for_status` on a non-2xx status; `none`).
The trace records the attempts made and the `time.sleep` delays
(`retry_delay * (attempt + 1)`). -/

structure FetchTrace (R : Type) where
  result : Option R
  attempts : List ℕ
  sleeps : List ℚ
deriving DecidableEq

/-- The `for attempt in range(max_retries)` loop body over the remaining
attempt indices. -/
def fetchLoop {R : Type} (outcome : ℕ → Option R) (retryDelay : ℚ) :
    List ℕ → FetchTrace R
  | [] => ⟨none, [], []⟩
  | i :: rest =>
    match outcome i with
    | some r => ⟨some r, [i], []⟩
    | none =>
      if rest.isEmpty then ⟨none, [i], []⟩
      else
        let t := fetchLoop outcome retryDelay rest
        ⟨t.result, i :: t.attempts, retryDelay * (i + 1) :: t.sleeps⟩

/-- `KFCCCrawler._make_request`. -/
def makeRequest {R : Type} (outcome : ℕ → Option R) (retryDelay : ℚ) (maxRetries : ℕ) :
    FetchTrace R :=
  fetchLoop outcome retryDelay (List.range maxRetries)

/-! ## `grade_crawler.py` — `GradeCrawler.should_collect_grades` -/

/-- `GRADE_CONFIG['collection_month']` may be a single month or a list. -/
abbrev CollectionMonths := List ℕ ⊕ ℕ

structure GradeConfig where
  enabled : Bool
  collectionMonth : CollectionMonths

/-- `GradeCrawler.should_collect_grades`; `forceEnv` is
`os.getenv('FORCE_GRADE_COLLECTION', '')`. -/
def shouldCollectGrades (cfg : GradeConfig) (forceEnv : String) (currentMonth : ℕ) : Bool :=
  if ¬ cfg.enabled then false
  else if forceEnv.toLower == "true" then true
  else
    match cfg.collectionMonth with
    | .inl months => currentMonth ∈ months
    | .inr m => currentMonth == m

/-! ## Claim-side predicates and concrete sample data -/

/-- The row text begins with a 5-digit code (`^(\d{5})`). -/
def hasLeadingCode (t : List Char) : Bool :=
  (t.take 5).length = 5 && (t.take 5).all Char.isDigit

/-- After the 5-digit code there is a non-empty run of Hangul name characters
(`^\d{5}([가-힣]+)`). -/
def hasNameRun (t : List Char) : Bool :=
  !((t.drop 5).takeWhile isHangul).isEmpty

/-- The six required hidden metadata field titles of the structured branch
strategy (`field_mapping`). -/
def requiredTitles : List String :=
  ["gmgoCd", "name", "divNm", "gmgoType", "telephone", "addr"]

/-- Number of hidden spans of a row carrying a required metadata title. -/
def requiredFieldCount (r : Row) : ℕ :=
  (r.hiddenSpans.filter (fun sp => sp.1 ∈ requiredTitles)).length

/-- A row with five hidden spans of which only four carry required titles. -/
def rowWithJunkSpan : Row :=
  ⟨[("gmgoCd", "01234"), ("name", "금고"), ("divNm", "본점"), ("gmgoType", "지역"),
    ("xyz", "junk")], 0, []⟩

/-- Sample bank-list file content. -/
def sampleBankListFile : BankListFile :=
  ⟨⟨1, 1, 0, "1.1"⟩, [⟨"00001", "금고"⟩]⟩

/-- Sample daily-rates file content. -/
def sampleRatesFile : RatesFile :=
  ⟨⟨"2024-01-01", 0, 0, 0, "1.1"⟩, .emptyS 0 0, []⟩

/-- Sample rate record. -/
def sampleRateRecord : RateRecord :=
  ⟨"00001", "금고", "", [], 0, 0⟩

/-- Store state with an existing bank-list file and an existing
`rates/2024-01-01.json`. -/
def sampleStoreA : StorageState :=
  ⟨some sampleBankListFile, [("2024-01-01.json", sampleRatesFile)], none, [], []⟩

/-- 2024-01-02 00:00:00 in seconds. -/
def timeA : Time := (toOrdinal 2024 1 2 : ℤ) * 86400

/-- 2025-07-02 00:00:00 in seconds. -/
def timeB : Time := (toOrdinal 2025 7 2 : ℤ) * 86400

/-- Store state with an existing `grades_2025_07.json` and an existing rolling
summary, and an empty backup directory. -/
def sampleStoreB : StorageState :=
  ⟨none, [], some [("2025-07-01", .emptyS 0 0)],
   [("grades_2025_07.json", ⟨⟨0, 0, some 2025, some 7⟩, []⟩)], []⟩

/-- Sample grade record for evaluation period 2025-07. -/
def sampleGrade : GradeRecord :=
  ⟨"01234", "금고", "서울", "강남구", "기관", "20250630", "2", "우수", "설명", 0, 2025, 7⟩

/-! # Theorems -/

/-! ## C9 — empty saves are rejected with no filesystem effect -/

/-- C9: `save_bank_list` and `save_daily_rates` on an empty record list return
`False` without touching the store: no file is created or overwritten and no
backup is made. -/
theorem c9_empty_save_noop :
    ∀ (now : Time) (d : Option String) (s : StorageState),
      saveBankList now [] s = (s, false) ∧ saveDailyRates now [] d s = (s, false) := by
  intro now d s
  exact ⟨rfl, rfl⟩

/-! ## C10 — the grade-collection gate -/

/-- C10: `should_collect_grades` returns `False` whenever
`GRADE_CONFIG['enabled']` is false, regardless of the
`FORCE_GRADE_COLLECTION` environment override and of the current month. -/
theorem c10_enabled_gate :
    ∀ (cfg : GradeConfig) (env : String) (month : ℕ),
      cfg.enabled = false → shouldCollectGrades cfg env month = false := by
  intro cfg env month h
  simp [shouldCollectGrades, h]

/-- Witness for C10 at a concrete configuration, override and month. -/
theorem c10_enabled_gate_witness :
    shouldCollectGrades ⟨false, Sum.inr 7⟩ "true" 7 = false :=
  c10_enabled_gate ⟨false, Sum.inr 7⟩ "true" 7 rfl

/-! ## C3 — bounded retry with linear backoff, explicit failure -/

/-- `fetchLoop` when every remaining attempt fails. -/
theorem fetchLoop_allFail {R : Type} (outcome : ℕ → Option R) (d : ℚ) :
    ∀ l : List ℕ, (∀ i ∈ l, outcome i = none) →
      fetchLoop outcome d l = ⟨none, l, l.dropLast.map (fun i : ℕ => d * ((i : ℚ) + 1))⟩ := by
  intro l
  induction l with
  | nil => intro _; rfl
  | cons i rest ih =>
    intro h
    have hi : outcome i = none := h i (List.mem_cons_self i rest)
    cases rest with
    | nil => simp [fetchLoop, hi]
    | cons j rs =>
      have ht := ih (fun x hx => h x (List.mem_cons_of_mem i hx))
      have hstep : fetchLoop outcome d (i :: j :: rs) =
          ⟨(fetchLoop outcome d (j :: rs)).result, i :: (fetchLoop outcome d (j :: rs)).attempts,
            d * ((i : ℚ) + 1) :: (fetchLoop outcome d (j :: rs)).sleeps⟩ := by
        rw [fetchLoop, hi]
        rfl
      rw [hstep, ht]
      rfl

/-- C3: on persistent transport-level / non-2xx failure, `_make_request` makes
exactly `maxRetries` attempts, sleeping `retry_delay * attemptNumber` between
consecutive attempts (linearly increasing), and resolves to the explicit
failure value `none` instead of raising. -/
theorem c3_retry_behavior {R : Type} (outcome : ℕ → Option R) (d : ℚ) (n : ℕ)
    (h : ∀ i < n, outcome i = none) :
    makeRequest outcome d n =
      ⟨none, List.range n, (List.range (n - 1)).map (fun i : ℕ => d * ((i : ℚ) + 1))⟩ := by
  have hall : ∀ i ∈ List.range n, outcome i = none := by
    intro i hi
    exact h i (List.mem_range.mp hi)
  have := fetchLoop_allFail outcome d (List.range n) hall
  rw [makeRequest, this]
  congr 1
  cases n with
  | zero => rfl
  | succ m =>
    rw [List.range_succ, List.dropLast_concat]
    simp

/-- Witness for C3: three always-failing attempts, base delay `1/2`. -/
theorem c3_retry_behavior_witness :
    makeRequest (fun _ => (none : Option ℕ)) (1 / 2 : ℚ) 3 =
      ⟨none, List.range 3, (List.range 2).map (fun i : ℕ => (1 / 2 : ℚ) * ((i : ℚ) + 1))⟩ :=
  c3_retry_behavior (fun _ => (none : Option ℕ)) (1 / 2 : ℚ) 3 (fun _ _ => rfl)

/-! ## C7 — sight-deposit quotes have duration 0 -/

/-- C7: for the sight-deposit category the extraction step supplies an empty
duration text, an empty duration text parses to 0, and hence every quote
produced for that category has `duration_months = 0`. -/
theorem c7_sight_duration :
    (∀ cells : List String, (extractDurationAndRate cells "요구불예탁금").1 = "") ∧
    parseDuration "" = 0 ∧
    (∀ (cells : List String) (p : Product),
      parseProductRow cells "요구불예탁금" = some p → p.durationMonths = 0) := by
  refine ⟨fun cells => rfl, rfl, ?_⟩
  intro cells p h
  simp only [parseProductRow] at h
  split_ifs at h with h1 h2 h3
  rw [Option.some_inj] at h
  subst h
  rfl

/-- Witness for C7 at a concrete sight-deposit row. -/
theorem c7_sight_duration_witness :
    ∃ p : Product, parseProductRow ["온라인자립예탁금", "1.5%"] "요구불예탁금" = some p ∧
      p.durationMonths = 0 := by
  have h : parseProductRow ["온라인자립예탁금", "1.5%"] "요구불예탁금" =
      some ⟨"온라인자립예탁금", 0, 3 / 2, "", "1.5%", "요구불예탁금"⟩ := by
    simp [parseProductRow, isValidProduct, validProducts, containsSub, extractDurationAndRate,
      parseDuration, parseRate, digitsToNat, List.lookup, List.isPrefixOf, Product.mk.injEq]
    norm_num
  exact ⟨_, h, c7_sight_duration.2.2 _ _ h⟩

/-! ## C4 — validity policy of `parse_product_row` -/

/-- C4: a quote is produced only if it passes the validity policy —
sight-deposit quotes require `rate > 0` only, all other categories require
`duration > 0` and `rate > 0`; any row whose extracted rate text is `"0%"`
yields no quote (`none`, never an exception). -/
theorem c4_validity_policy :
    (∀ (cells : List String) (ptype : String) (p : Product),
      parseProductRow cells ptype = some p →
        (if ptype = "요구불예탁금" then 0 < p.interestRate
         else 0 < p.durationMonths ∧ 0 < p.interestRate)) ∧
    (∀ (cells : List String) (ptype : String),
      (extractDurationAndRate cells ptype).2 = "0%" →
        parseProductRow cells ptype = none) := by
  constructor
  · intro cells ptype p h
    simp only [parseProductRow] at h
    split_ifs at h with h1 h2 h3 h4 h5
    · rw [Option.some_inj] at h
      subst h
      rw [if_pos h3]
      exact lt_of_not_le h4
    · rw [Option.some_inj] at h
      subst h
      rw [if_neg h3]
      push_neg at h5
      exact ⟨h5.1, h5.2⟩
  · intro cells ptype h
    have hr : parseRate (extractDurationAndRate cells ptype).2 = 0 := by
      rw [h]
      simp [parseRate, digitsToNat]
    simp only [parseProductRow]
    split_ifs with h1 h2 h3 h4 h5 <;>
      first
        | rfl
        | exact absurd (le_of_eq hr) h4
        | exact absurd (Or.inr (le_of_eq hr)) h5

/-- Witness for C4: a valid term-deposit row passes both checks, and a
sight-deposit row with rate text `"0%"` is rejected. -/
theorem c4_validity_policy_witness :
    (∃ p : Product,
      parseProductRow ["MG더뱅킹정기예금", "12개월이상", "3.25%"] "거치식예탁금" = some p ∧
        0 < p.durationMonths ∧ 0 < p.interestRate) ∧
    parseProductRow ["온라인자립예탁금", "0%"] "요구불예탁금" = none := by
  constructor
  · have h : parseProductRow ["MG더뱅킹정기예금", "12개월이상", "3.25%"] "거치식예탁금" =
        some ⟨"MG더뱅킹정기예금", 12, 13 / 4, "12개월이상", "3.25%", "거치식예탁금"⟩ := by
      simp [parseProductRow, isValidProduct, validProducts, containsSub, extractDurationAndRate,
        parseDuration, parseRate, digitsToNat, removeSub, List.lookup, List.isPrefixOf,
        Product.mk.injEq]
      norm_num
    have h2 := c4_validity_policy.1 _ _ _ h
    rw [if_neg (by decide)] at h2
    exact ⟨_, h, h2⟩
  · exact c4_validity_policy.2 ["온라인자립예탁금", "0%"] "요구불예탁금" rfl

/-! ## C6 — product deduplication -/

/-- The output of the dedup loop is a sublist of the input (order preserved,
records only dropped). -/
theorem removeDupGo_sublist (seen : List (String × ℕ × ℚ × String)) :
    ∀ l : List Product, List.Sublist (removeDupGo seen l) l := by
  intro l
  induction l generalizing seen with
  | nil => exact List.Sublist.refl []
  | cons p ps ih =>
    rw [removeDupGo]
    split_ifs
    · exact (ih seen).cons p
    · exact (ih (dedupKey p :: seen)).cons₂ p

/-- No record surviving the loop has a key already in `seen`. -/
theorem removeDupGo_not_seen (seen : List (String × ℕ × ℚ × String)) :
    ∀ l : List Product, ∀ q ∈ removeDupGo seen l, dedupKey q ∉ seen := by
  intro l
  induction l generalizing seen with
  | nil => intro q hq; exact absurd hq (List.not_mem_nil q)
  | cons p ps ih =>
    intro q hq
    rw [removeDupGo] at hq
    split_ifs at hq with hmem
    · exact ih seen q hq
    · rcases List.mem_cons.mp hq with rfl | hq2
      · exact hmem
      · have := ih (dedupKey p :: seen) q hq2
        exact fun hs => this (List.mem_cons_of_mem _ hs)

/-- The surviving keys are pairwise distinct. -/
theorem removeDupGo_keys_nodup (seen : List (String × ℕ × ℚ × String)) :
    ∀ l : List Product, ((removeDupGo seen l).map dedupKey).Nodup := by
  intro l
  induction l generalizing seen with
  | nil => exact List.nodup_nil
  | cons p ps ih =>
    rw [removeDupGo]
    split_ifs with hmem
    · exact ih seen
    · rw [List.map_cons, List.nodup_cons]
      refine ⟨?_, ih (dedupKey p :: seen)⟩
      intro hk
      rcases List.mem_map.mp hk with ⟨q, hq, hkey⟩
      exact removeDupGo_not_seen _ _ q hq (hkey ▸ List.mem_cons_self _ _)

/-- Per-key characterisation: the loop keeps exactly the first record of each
unseen key. -/
theorem removeDupGo_filter (k : String × ℕ × ℚ × String)
    (seen : List (String × ℕ × ℚ × String)) :
    ∀ l : List Product,
      (removeDupGo seen l).filter (fun p => dedupKey p = k) =
        if k ∈ seen then [] else (l.filter (fun p => dedupKey p = k)).take 1 := by
  intro l
  induction l generalizing seen with
  | nil => simp [removeDupGo]
  | cons p ps ih =>
    rw [removeDupGo]
    by_cases hmem : dedupKey p ∈ seen <;> by_cases hpk : dedupKey p = k <;>
      by_cases hk : k ∈ seen
    · simp [hmem, hpk, hk, ih]
    · exact absurd (hpk ▸ hmem) hk
    · simp [hmem, hpk, hk, ih, List.filter_cons, (fun he => hpk he.symm : ¬ k = dedupKey p)]
    · simp [hmem, hpk, hk, ih, List.filter_cons, (fun he => hpk he.symm : ¬ k = dedupKey p)]
    · exact absurd (hpk.symm ▸ hk) hmem
    · simp [hmem, hpk, hk, ih, List.filter_cons]
    · simp [hmem, hpk, hk, ih, List.filter_cons, (fun he => hpk he.symm : ¬ k = dedupKey p)]
    · simp [hmem, hpk, hk, ih, List.filter_cons, (fun he => hpk he.symm : ¬ k = dedupKey p)]
      intro he
      exact absurd he.symm hpk

/-- `removeDupGo` is the identity on lists whose keys are fresh and pairwise
distinct. -/
theorem removeDupGo_id (seen : List (String × ℕ × ℚ × String)) :
    ∀ l : List Product, (∀ q ∈ l, dedupKey q ∉ seen) → (l.map dedupKey).Nodup →
      removeDupGo seen l = l := by
  intro l
  induction l generalizing seen with
  | nil => intro _ _; rfl
  | cons p ps ih =>
    intro hfresh hnodup
    rw [removeDupGo, if_neg (hfresh p (List.mem_cons_self _ _))]
    rw [List.map_cons, List.nodup_cons] at hnodup
    have : removeDupGo (dedupKey p :: seen) ps = ps := by
      refine ih _ (fun q hq => ?_) hnodup.2
      intro hqs
      rcases List.mem_cons.mp hqs with heq | hs
      · exact hnodup.1 (heq ▸ List.mem_map_of_mem dedupKey hq)
      · exact hfresh q (List.mem_cons_of_mem _ hq) hs
    rw [this]

/-- C6: the deduplicator keeps the first occurrence of each composite key
`(product_name, duration_months, interest_rate, product_type)` in input order
and drops later repeats: the output is an order-preserving sublist, its keys
are pairwise distinct, per key it retains exactly the first matching record,
and it is idempotent. -/
theorem c6_dedup_spec :
    ∀ l : List Product,
      List.Sublist (removeDuplicateProducts l) l ∧
      ((removeDuplicateProducts l).map dedupKey).Nodup ∧
      (∀ k, (removeDuplicateProducts l).filter (fun p => dedupKey p = k) =
        (l.filter (fun p => dedupKey p = k)).take 1) ∧
      removeDuplicateProducts (removeDuplicateProducts l) = removeDuplicateProducts l := by
  intro l
  refine ⟨removeDupGo_sublist [] l, removeDupGo_keys_nodup [] l, ?_, ?_⟩
  · intro k
    have := removeDupGo_filter k [] l
    rwa [if_neg (List.not_mem_nil k)] at this
  · exact removeDupGo_id [] (removeDuplicateProducts l)
      (fun q _ => List.not_mem_nil (dedupKey q)) (removeDupGo_keys_nodup [] l)

/-! ## C2 — the chunk-collapse heuristic `_remove_duplicates` -/

theorem repChunks_length (C : List Char) : ∀ n, (repChunks n C).length = n * C.length := by
  intro n
  induction n with
  | zero => simp [repChunks]
  | succ m ih =>
    simp only [repChunks, List.length_append, ih, Nat.succ_mul]
    omega

theorem chunkList_rep (C : List Char) (hC : C ≠ []) :
    ∀ k, chunkList (repChunks k C) C.length = List.replicate k C := by
  intro k
  induction k with
  | zero =>
    rw [chunkList]
    simp [repChunks]
  | succ m ih =>
    have hpos : 0 < C.length := List.length_pos.mpr hC
    have hne : C ++ repChunks m C ≠ [] := by
      intro hcon
      exact hC (List.append_eq_nil.mp hcon).1
    rw [repChunks, chunkList, dif_pos ⟨hpos, hne⟩, List.take_left, List.drop_left, ih]
    rfl

/-- A text that is exactly `n` copies of a non-empty chunk splits under
divisor `n` into `n` identical chunks. -/
theorem tryDiv_repChunks (n : ℕ) (hn : 2 ≤ n) (C : List Char) (hC : C ≠ []) :
    tryDiv n (repChunks n C) = some C := by
  have hpos : 0 < C.length := List.length_pos.mpr hC
  have hlen : (repChunks n C).length = n * C.length := repChunks_length C n
  have hge : n * C.length ≥ n := Nat.le_mul_of_pos_right n hpos
  have hdiv : n * C.length / n = C.length := Nat.mul_div_cancel_left C.length (by omega)
  rw [tryDiv, hlen, if_pos ⟨hge, Nat.mul_mod_right n C.length⟩, hdiv, chunkList_rep C hC n]
  obtain ⟨m, rfl⟩ : ∃ m, n = m + 1 := ⟨n - 1, by omega⟩
  rw [List.replicate_succ]
  have hall : (List.replicate m C).all (fun x => x == C) = true := by
    simp [List.all_eq_true, List.mem_replicate]
  simp [hall]

/-- C2 (amended): doubling a chunk collapses exactly to the chunk; a tripled
chunk collapses to the chunk unless the tripled text also splits into two
identical halves (divisor 2 is tried first); a quadrupled chunk always
collapses to the doubled chunk, because the 2-split of `C⁴` always succeeds;
and a text with no identical 2-, 3- or 4-chunk split is returned unchanged. -/
theorem c2_collapse :
    (∀ C : List Char, removeDuplicates (repChunks 2 C) = C) ∧
    (∀ C : List Char, tryDiv 2 (repChunks 3 C) = none →
      removeDuplicates (repChunks 3 C) = C) ∧
    (∀ C : List Char, removeDuplicates (repChunks 4 C) = repChunks 2 C) ∧
    (∀ t : List Char, tryDiv 2 t = none → tryDiv 3 t = none → tryDiv 4 t = none →
      removeDuplicates t = t) := by
  refine ⟨?_, ?_, ?_, ?_⟩
  · intro C
    by_cases hC : C = []
    · subst hC
      rfl
    · rw [removeDuplicates, tryDiv_repChunks 2 le_rfl C hC]
  · intro C h2
    by_cases hC : C = []
    · subst hC
      rfl
    · rw [removeDuplicates, h2, tryDiv_repChunks 3 (by omega) C hC]
  · intro C
    by_cases hC : C = []
    · subst hC
      rfl
    · have hfour : repChunks 4 C = repChunks 2 (repChunks 2 C) := by
        simp [repChunks, List.append_assoc]
      have hne2 : repChunks 2 C ≠ [] := by
        simp only [repChunks, List.append_nil]
        intro hcon
        exact hC (List.append_eq_nil.mp hcon).1
      rw [removeDuplicates, hfour, tryDiv_repChunks 2 le_rfl (repChunks 2 C) hne2]
  · intro t h2 h3 h4
    rw [removeDuplicates, h2, h3, h4]

/-- Witness for C2 (amended) at concrete chunks. -/
theorem c2_collapse_witness :
    removeDuplicates (repChunks 2 ['a', 'b']) = ['a', 'b'] ∧
    removeDuplicates (repChunks 3 ['a', 'b']) = ['a', 'b'] ∧
    removeDuplicates (repChunks 4 ['a', 'b']) = repChunks 2 ['a', 'b'] ∧
    removeDuplicates ['a', 'b', 'c'] = ['a', 'b', 'c'] := by
  have h2 : tryDiv 2 (repChunks 3 ['a', 'b']) = none := by
    simp [tryDiv, repChunks, chunkList]
  have e2 : tryDiv 2 ['a', 'b', 'c'] = none := by
    simp [tryDiv]
  have e3 : tryDiv 3 ['a', 'b', 'c'] = none := by
    simp [tryDiv, chunkList]
  have e4 : tryDiv 4 ['a', 'b', 'c'] = none := by
    simp [tryDiv]
  exact ⟨c2_collapse.1 ['a', 'b'], c2_collapse.2.1 ['a', 'b'] h2,
    c2_collapse.2.2.1 ['a', 'b'], c2_collapse.2.2.2 ['a', 'b', 'c'] e2 e3 e4⟩

/-- C2 counterexample: the claim "for every chunk `C` and every
`n ∈ {2, 3, 4}` the function applied to `C` repeated `n` times returns exactly
`C`" fails at `C = ['a']`, `n = 4`: the divisor-2 split is found first and the
function returns `['a', 'a']`. -/
theorem c2_counterexample :
    repChunks 4 ['a'] = ['a', 'a', 'a', 'a'] ∧
    removeDuplicates (repChunks 4 ['a']) = ['a', 'a'] ∧
    removeDuplicates (repChunks 4 ['a']) ≠ ['a'] := by
  have h : removeDuplicates (repChunks 4 ['a']) = ['a', 'a'] := by
    simp [removeDuplicates, tryDiv, repChunks, chunkList]
  exact ⟨rfl, h, by rw [h]; decide⟩

/-! ## C5 — strategy order and fallback conditions for branch rows -/

/-- C5 (amended): a row with fewer than five hidden spans never matches the
structured strategy and the heuristic fallback is then tried; the fallback
produces a record only if the row text begins with a 5-digit code followed by
a non-empty run of Hangul name characters, and yields no record otherwise. -/
theorem c5_strategy_gate :
    (∀ r : Row, r.hiddenSpans.length < 5 →
      extractFromHiddenSpans r = none ∧ bankRowData r = extractFromText r) ∧
    (∀ (r : Row) (d : BankData), extractFromText r = some d →
      hasLeadingCode r.fullText = true ∧ hasNameRun r.fullText = true) ∧
    (∀ r : Row, ¬ (hasLeadingCode r.fullText = true ∧ hasNameRun r.fullText = true) →
      extractFromText r = none) := by
  refine ⟨?_, ?_, ?_⟩
  · intro r h
    have hnone : extractFromHiddenSpans r = none := by
      rw [extractFromHiddenSpans, if_pos h]
    refine ⟨hnone, ?_⟩
    rw [bankRowData, hnone]
  · intro r d h
    simp only [extractFromText] at h
    split_ifs at h with h1 h2
    split at h
    · exact Option.noConfusion h
    · rename_i nm nmRest heq
      constructor
      · rw [hasLeadingCode]
        simp [h2.1, h2.2]
      · rw [hasNameRun, heq]
        rfl
  · intro r hy
    simp only [extractFromText]
    split_ifs with h1 h2
    · rfl
    · have hcode : hasLeadingCode r.fullText = true := by
        rw [hasLeadingCode]
        simp [h2.1, h2.2]
      have hnr : (r.fullText.drop 5).takeWhile isHangul = [] := by
        by_contra hne
        apply hy
        refine ⟨hcode, ?_⟩
        rw [hasNameRun]
        simp [List.isEmpty_iff, hne]
      simp [hnr]
    · rfl

/-- Witness for C5 (amended): a row with a single hidden span falls through to
the text strategy; a text row `"12345대한금고"` succeeds and satisfies both
leading-code and name-run conditions; a row text without a leading code yields
no record. -/
theorem c5_strategy_gate_witness :
    (extractFromHiddenSpans ⟨[("gmgoCd", "01234")], 0, []⟩ = none ∧
      bankRowData ⟨[("gmgoCd", "01234")], 0, []⟩ =
        extractFromText ⟨[("gmgoCd", "01234")], 0, []⟩) ∧
    (hasLeadingCode "12345대한금고".data = true ∧ hasNameRun "12345대한금고".data = true) ∧
    extractFromText ⟨[], 6, "abcdef".data⟩ = none := by
  refine ⟨c5_strategy_gate.1 ⟨[("gmgoCd", "01234")], 0, []⟩ (by decide), ?_, ?_⟩
  · have h : extractFromText ⟨[], 6, "12345대한금고".data⟩ =
        some ⟨"12345", "대한금고", some "", some "", some ""⟩ := by
      simp [extractFromText, removeDuplicates, tryDiv, chunkList, isHangul, searchParen,
        searchPhone, matchPhoneAt, searchAddr, matchAddrAt, regionWords, containsSub,
        stripChars, List.isPrefixOf, BankData.mk.injEq]
      exact ⟨rfl, rfl, rfl⟩
    exact c5_strategy_gate.2.1 ⟨[], 6, "12345대한금고".data⟩ _ h
  · exact c5_strategy_gate.2.2 ⟨[], 6, "abcdef".data⟩ (by decide)

/-- C5 counterexample: a row whose five hidden spans include only four of the
required metadata fields (the fifth span has an unrecognised title) still
matches the structured strategy, so the claim's "fewer than 5 of the required
hidden metadata fields" gate is not what the code implements (the code counts
all hidden spans). -/
theorem c5_counterexample :
    requiredFieldCount rowWithJunkSpan = 4 ∧
    rowWithJunkSpan.hiddenSpans.length = 5 ∧
    extractFromHiddenSpans rowWithJunkSpan =
      some ⟨"01234", "금고(본점)", some "지역", none, none⟩ ∧
    bankRowData rowWithJunkSpan = extractFromHiddenSpans rowWithJunkSpan := by
  exact ⟨by decide, by decide, by decide, by decide⟩

/-! ## C8 — age-based cleanup of the rates directory -/

/-- The cleanup loop removes exactly the files satisfying `oldRatesFile` and
counts them. -/
theorem cleanupLoop_filter (now : Time) (daysToKeep : ℕ) :
    ∀ files : List String,
      cleanupLoop now daysToKeep files =
        (files.filter (fun f => !(oldRatesFile now daysToKeep f)),
         (files.filter (oldRatesFile now daysToKeep)).length) := by
  intro files
  induction files with
  | nil => rfl
  | cons f rest ih =>
    by_cases ho : oldRatesFile now daysToKeep f = true
    · simp [cleanupLoop, ih, ho, List.filter_cons]
    · simp [cleanupLoop, ih, ho, List.filter_cons]

/-- C8 (amended): `cleanup_old_data` removes exactly those files matching the
`*.json*` glob whose stem (after dropping `.json`) parses as a calendar date
strictly older than `now - days_to_keep`, returns their count, skips
everything else (including date-named files without `.json` in the name), and
is a no-op when the rates directory does not exist.  In particular, with
`days_to_keep = 30` and files dated today, 10 and 40 days ago, only the
40-day-old file is removed and the count is 1. -/
theorem c8_cleanup_spec :
    (∀ (files : List String) (now : Time) (days : ℕ),
      cleanupOldData true files now days =
        (files.filter (fun f => !(oldRatesFile now days f)),
         (files.filter (oldRatesFile now days)).length) ∧
      cleanupOldData false files now days = (files, 0)) ∧
    cleanupOldData true ["2024-02-10.json", "2024-01-31.json", "2024-01-01.json"]
        ((toOrdinal 2024 2 10 : ℤ) * 86400 + 3600) 30 =
      (["2024-02-10.json", "2024-01-31.json"], 1) := by
  constructor
  · intro files now days
    exact ⟨cleanupLoop_filter now days files, rfl⟩
  · have h1 : oldRatesFile ((toOrdinal 2024 2 10 : ℤ) * 86400 + 3600) 30
        "2024-02-10.json" = false := by
      simp [oldRatesFile, globJson, containsSub, stemChars, removeSub, parseYMD, digitsToNat,
        toOrdinal, daysInMonth, daysBeforeMonth, isLeap, List.isPrefixOf]
      all_goals norm_num [List.range_succ]
    have h2 : oldRatesFile ((toOrdinal 2024 2 10 : ℤ) * 86400 + 3600) 30
        "2024-01-31.json" = false := by
      simp [oldRatesFile, globJson, containsSub, stemChars, removeSub, parseYMD, digitsToNat,
        toOrdinal, daysInMonth, daysBeforeMonth, isLeap, List.isPrefixOf]
      all_goals norm_num [List.range_succ]
    have h3 : oldRatesFile ((toOrdinal 2024 2 10 : ℤ) * 86400 + 3600) 30
        "2024-01-01.json" = true := by
      simp [oldRatesFile, globJson, containsSub, stemChars, removeSub, parseYMD, digitsToNat,
        toOrdinal, daysInMonth, daysBeforeMonth, isLeap, List.isPrefixOf]
      all_goals norm_num [List.range_succ]
    rw [cleanupOldData]
    simp [cleanupLoop_filter, List.filter_cons, h1, h2, h3]

/-- C8 counterexample: the file `1999-01-01.txt` has a stem that parses as a
calendar date strictly older than the cutoff, yet `cleanup_old_data` does not
remove it (it is outside the `*.json*` glob) and returns count 0 — the claim's
"removes exactly those files whose filename stem parses as a date older than
the cutoff" is therefore false as stated. -/
theorem c8_counterexample :
    parseYMD (removeSub ".json".data (stemChars "1999-01-01.txt".data)) =
      some (toOrdinal 1999 1 1) ∧
    ((toOrdinal 1999 1 1 : ℤ) * 86400 < (toOrdinal 2024 1 1 : ℤ) * 86400 - 30 * 86400) ∧
    cleanupOldData true ["1999-01-01.txt"] ((toOrdinal 2024 1 1 : ℤ) * 86400) 30 =
      (["1999-01-01.txt"], 0) := by
  refine ⟨?_, ?_, ?_⟩
  · simp [stemChars, removeSub, parseYMD, digitsToNat, toOrdinal, daysInMonth, daysBeforeMonth,
      isLeap, List.isPrefixOf]
    all_goals norm_num [List.range_succ]
  · norm_num [toOrdinal, daysBeforeMonth, List.range_succ, daysInMonth, isLeap]
  · have h : oldRatesFile ((toOrdinal 2024 1 1 : ℤ) * 86400) 30 "1999-01-01.txt" = false := by
      simp [oldRatesFile, globJson, containsSub, List.isPrefixOf]
    rw [cleanupOldData]
    simp [cleanupLoop_filter, List.filter_cons, h]

/-! ## C1 — backup-before-overwrite policy of the snapshot store -/

/-- A successful `_create_backup` leaves the fresh copy at the head of the
backup directory (the 7-day prune never deletes an entry written now). -/
theorem createBackup_head (now : Time) (payload : BackupPayload) (stem sfx : String)
    (backups : List BackupEntry) :
    (createBackup now (some payload) stem sfx backups).head? =
      some (stem ++ "_" ++ fmtTimestamp now ++ sfx, now, payload) := by
  rw [createBackup, cleanupOldBackups, List.filter_cons, if_pos]
  · rfl
  · simp

/-- C1 (amended): `save_bank_list` and `save_daily_rates`, when their target
file already exists, first copy it under a timestamped name into the backup
directory before overwriting; `save_summary` and `save_grades` never create a
backup (`save_summary` merges the existing entries instead, `save_grades`
overwrites outright). -/
theorem c1_backup_policy :
    (∀ (now : Time) (banks : List StoredBank) (s : StorageState) (f : BankListFile),
      banks ≠ [] → s.bankListFile = some f →
        ((saveBankList now banks s).1.backups).head? =
          some (bankListStem ++ "_" ++ fmtTimestamp now ++ bankListSuffix, now, Sum.inl f)) ∧
    (∀ (now : Time) (rates : List RateRecord) (date : String) (s : StorageState)
      (f : RatesFile),
      rates ≠ [] → s.ratesFiles.lookup (date ++ ".json") = some f →
        ((saveDailyRates now rates (some date) s).1.backups).head? =
          some (date ++ "_" ++ fmtTimestamp now ++ ".json", now, Sum.inr f)) ∧
    (∀ (now : Time) (g : List GradeRecord) (s : StorageState),
      (saveGrades now g s).1.backups = s.backups) ∧
    (∀ (now : Time) (sd : Summary) (ds : Option String) (s : StorageState)
      (res : StorageState × Bool),
      saveSummary now sd ds s = .ok res → res.1.backups = s.backups) := by
  refine ⟨?_, ?_, ?_, ?_⟩
  · intro now banks s f hb hf
    have hne : ¬ banks.isEmpty = true := by
      simpa [List.isEmpty_iff] using hb
    rw [saveBankList, if_neg hne]
    simp only [hf]
    exact createBackup_head now (Sum.inl f) bankListStem bankListSuffix s.backups
  · intro now rates date s f hr hf
    have hne : ¬ rates.isEmpty = true := by
      simpa [List.isEmpty_iff] using hr
    rw [saveDailyRates, if_neg hne]
    simp only [Option.getD_some, hf]
    exact createBackup_head now (Sum.inr f) date ".json" s.backups
  · intro now g s
    rfl
  · intro now sd ds s res h
    rw [saveSummary] at h
    split_ifs at h
    rw [Except.ok.injEq] at h
    rw [← h]

/-- Witness for C1 (amended): over a store whose bank-list file and
`rates/2024-01-01.json` both exist, both saves put the prior content at the
head of the backup directory. -/
theorem c1_backup_policy_witness :
    ((saveBankList timeA [⟨"00002", "새금고"⟩] sampleStoreA).1.backups).head? =
      some (bankListStem ++ "_" ++ fmtTimestamp timeA ++ bankListSuffix, timeA,
        Sum.inl sampleBankListFile) ∧
    ((saveDailyRates timeA [sampleRateRecord] (some "2024-01-01") sampleStoreA).1.backups).head? =
      some ("2024-01-01" ++ "_" ++ fmtTimestamp timeA ++ ".json", timeA,
        Sum.inr sampleRatesFile) :=
  ⟨c1_backup_policy.1 timeA [⟨"00002", "새금고"⟩] sampleStoreA sampleBankListFile
      (List.cons_ne_nil _ _) rfl,
   c1_backup_policy.2.1 timeA [sampleRateRecord] "2024-01-01" sampleStoreA sampleRatesFile
      (List.cons_ne_nil _ _) rfl⟩

/-- C1 counterexample: with an existing `grades_2025_07.json` and an existing
rolling summary and an empty backup directory, `save_grades` overwrites the
grades file and `save_summary` rewrites the summary file, yet the backup
directory stays empty — so "every snapshot-store write operation ... first
copies that file into a timestamped location in the backup directory" is
false for `save_grades` and `save_summary`. -/
theorem c1_counterexample :
    (sampleStoreB.gradesFiles.lookup "grades_2025_07.json").isSome = true ∧
    (saveGrades timeB [sampleGrade] sampleStoreB).1.backups = [] ∧
    (saveGrades timeB [sampleGrade] sampleStoreB).1.gradesFiles.lookup "grades_2025_07.json" =
      some ⟨⟨timeB, 1, some 2025, some 7⟩, [sampleGrade]⟩ ∧
    sampleStoreB.summaryFile.isSome = true ∧
    (saveSummary timeB (.emptyS 1 timeB) (some "2025-07-02") sampleStoreB).map
        (fun r => r.1.backups) = .ok [] := by
  refine ⟨rfl, rfl, ?_, rfl, ?_⟩
  · rfl
  · rfl

end KFCC
